import Mathlib

/-!
Verification of the health-care backend (admin creation and admin listing
with a dynamic query filter) against its natural-language specification.

The embedding mirrors the TypeScript sources:
- admin.service.ts     : getAllFromDB (dynamic where-clause construction)
- admin.controller.ts  : two handler versions (without and with pick/try-catch)
- user.service.ts      : createAdmin (hash, build records, atomic transaction)
- user.controller.ts   : createAdmin handler (status envelopes)

External collaborators (the Prisma data-access client, bcrypt, express) are
modelled by their documented interfaces: findMany validates field names and
filters; the transaction primitive applies both writes or neither; the hash
primitive is an abstract function parameter.
-/

namespace HealthCare

/-- A JavaScript value as it reaches the service layer from a query object:
either `undefined` or a string (express query parameter values are strings). -/
inductive JsVal
  | undef
  | str (s : String)
deriving DecidableEq

/-- A JavaScript object holding query parameters: an association list from
keys to values. A real JS object has no duplicate keys; theorems that need
this state it as a Nodup hypothesis on the key list. -/
def ParamsMap : Type := List (String × JsVal)

/-- Reading a property of a JS object: the bound value, or `undefined` when
the key is absent (property access on a missing key yields undefined). -/
def jsLookup (params : List (String × JsVal)) (k : String) : JsVal :=
  match params.find? (fun kv => kv.1 == k) with
  | some kv => kv.2
  | none => JsVal.undef

/-- JavaScript truthiness for the values that can appear here: `undefined`
is falsy, a string is truthy exactly when it is non-empty.  This is the
semantics of the source guard `if (params.searchTerm)`. -/
def truthy : JsVal → Bool
  | JsVal.undef => false
  | JsVal.str s => s != ""

/-- The underlying string of a defined value (used only under a truthiness
guard, where the value is a non-empty string). -/
def jsStr : JsVal → String
  | JsVal.undef => ""
  | JsVal.str s => s

/-- The object-rest of the destructuring `const { searchTerm, ...rest } = params`:
every binding except the `searchTerm` key. -/
def restOf (params : List (String × JsVal)) : List (String × JsVal) :=
  params.filter (fun kv => kv.1 != "searchTerm")

/-- Modelled from the spec: the Admin profile record. The Prisma schema file
is not among the sources; the spec data model gives the attributes `name`,
`email`, `contactNumber` (and unnamed further descriptive fields, which no
claim depends on). -/
structure Admin where
  name : String
  email : String
  contactNumber : String
deriving DecidableEq

/-- Field access by name on an Admin record, `none` for a field that is not
in the schema. -/
def Admin.getField (a : Admin) (f : String) : Option String :=
  if f = "name" then some a.name
  else if f = "email" then some a.email
  else if f = "contactNumber" then some a.contactNumber
  else none

/-- Whether a field name exists in the admin schema. -/
def isAdminField (f : String) : Bool :=
  f == "name" || f == "email" || f == "contactNumber"

/-- Case-insensitive substring containment, the semantics of the data-access
filter `contains` with `mode: "insensitive"`. -/
def ciContains (hay needle : String) : Bool :=
  decide ((needle.toList.map Char.toLower) <:+: (hay.toList.map Char.toLower))

/-- A leaf condition of the where-input the service constructs: either a
case-insensitive containment test or an equality test against a query value. -/
inductive Leaf
  | containsCI (field : String) (term : String)
  | eqField (field : String) (v : JsVal)
deriving DecidableEq

/-- A clause pushed into the `addCondition` array by the service: an OR or an
AND over leaf conditions. The top-level where-input is the AND of the list of
clauses; this covers exactly the fragment of the where-input grammar that
`getAllFromDB` builds. -/
inductive Clause
  | orC (leaves : List Leaf)
  | andC (leaves : List Leaf)
deriving DecidableEq

/-- The field a leaf condition refers to. -/
def Leaf.fieldName : Leaf → String
  | Leaf.containsCI f _ => f
  | Leaf.eqField f _ => f

/-- A leaf is valid when its field exists in the admin schema. -/
def Leaf.valid (l : Leaf) : Bool :=
  isAdminField l.fieldName

/-- A clause is valid when all its leaves are. -/
def Clause.valid : Clause → Bool
  | Clause.orC ls => ls.all Leaf.valid
  | Clause.andC ls => ls.all Leaf.valid

/-- A where-input is valid when all its clauses are; the data-access layer
rejects a query that mentions an unknown field. -/
def whereValid (w : List Clause) : Bool := w.all Clause.valid

/-- Evaluation of a leaf condition on a record. An equality test against
`undefined` imposes no constraint: the data-access client ignores undefined
filter values. -/
def evalLeaf : Leaf → Admin → Bool
  | Leaf.containsCI f t, a =>
    match a.getField f with
    | some v => ciContains v t
    | none => false
  | Leaf.eqField f v, a =>
    match v with
    | JsVal.undef => true
    | JsVal.str s =>
      match a.getField f with
      | some v2 => v2 == s
      | none => false

/-- Evaluation of a clause on a record. -/
def Clause.eval : Clause → Admin → Bool
  | Clause.orC ls, a => ls.any (fun l => evalLeaf l a)
  | Clause.andC ls, a => ls.all (fun l => evalLeaf l a)

/-- Evaluation of the top-level where-input (conjunction of clauses). -/
def evalWhere (w : List Clause) (a : Admin) : Bool :=
  w.all (fun c => c.eval a)

/-- The whitelist of searchable fields, from the source
(`adminSearchableFields = ["name", "email"]`). -/
def adminSearchableFields : List String := ["name", "email"]

/-- The JS error object (name and message) thrown by collaborators. -/
structure JsError where
  name : String
  message : String
deriving DecidableEq

/-- The validation error the data-access layer raises for a filter that
mentions a field not present in the schema. -/
def prismaUnknownArg : JsError :=
  { name := "PrismaClientValidationError"
    message := "Unknown argument in where clause for model Admin" }

/-- The where-input construction of `getAllFromDB` (admin.service.ts): push
an OR-of-contains clause over the searchable fields when `searchTerm` is
truthy, push an AND-of-equals clause over the remaining keys when any exist,
and wrap the collected clauses in a top-level AND. -/
def buildWhere (params : List (String × JsVal)) : List Clause :=
  let searchTerm := jsLookup params "searchTerm"
  let rest := restOf params
  let cond1 : List Clause :=
    if truthy searchTerm then
      [Clause.orC (adminSearchableFields.map (fun field =>
        Leaf.containsCI field (jsStr searchTerm)))]
    else []
  let cond2 : List Clause :=
    if 0 < rest.length then
      cond1 ++ [Clause.andC (rest.map (fun kv => Leaf.eqField kv.1 kv.2))]
    else cond1
  cond2

/-- The data-access query `prisma.admin.findMany({ where })` over an admin
table: it validates the field names mentioned by the filter (raising the
unknown-argument error otherwise) and returns every record satisfying the
predicate. -/
def findMany (db : List Admin) (w : List Clause) : Except JsError (List Admin) :=
  if whereValid w = true then Except.ok (db.filter (fun a => evalWhere w a))
  else Except.error prismaUnknownArg

/-- The service `AdminService.getAllFromDB` applied to a parameter object. -/
def getAllFromDB (db : List Admin) (params : List (String × JsVal)) :
    Except JsError (List Admin) :=
  findMany db (buildWhere params)

/-- The TypeError thrown by the destructuring
`const { searchTerm, ...rest } = params` when params is undefined or null. -/
def destructureErr : JsError :=
  { name := "TypeError"
    message := "Cannot destructure searchTerm of params as it is undefined" }

/-- The service as callable from JavaScript, where the argument may be
missing (`undefined`, modelled by `none`; a null argument behaves the same
way): the destructuring on the first line throws before any query is built. -/
def getAllFromDBJs (db : List Admin) (params : Option (List (String × JsVal))) :
    Except JsError (List Admin) :=
  match params with
  | none => Except.error destructureErr
  | some p => getAllFromDB db p

/-- The HTTP response envelope a handler sends: either the success shape
(status, message, data) or the failure shape (status, a success flag that the
handlers always set to false, message, error). -/
inductive Envelope (α : Type)
  | success (status : Nat) (message : String) (data : α)
  | failure (status : Nat) (success : Bool) (message : String) (error : String)
deriving DecidableEq

/-- Whether an envelope is the 200 success shape. -/
def Envelope.isOk200 : Envelope α → Bool
  | Envelope.success s _ _ => s == 200
  | Envelope.failure _ _ _ _ => false

/-- Whether an envelope is the 500 failure shape carrying success = false. -/
def Envelope.isErr500 : Envelope α → Bool
  | Envelope.success _ _ _ => false
  | Envelope.failure s ok _ _ => s == 500 && !ok

/-- Whether an Except result is a success. -/
def isOkE : Except JsError α → Bool
  | Except.ok _ => true
  | Except.error _ => false

/-- The JS string-or pattern `err.name || fallback`: the fallback is used
when the name is the empty string (falsy). -/
def nameOr (n fallback : String) : String :=
  if n = "" then fallback else n

/-- Modelled from the spec: the shared helper `pick` (the file
src/app/shared/pick.ts is not among the sources; the spec describes the
handler as one that parses and repacks request data). It returns the
sub-object of `obj` at exactly those of the given keys that are present
in `obj`, each bound to its value in `obj`. -/
def pick (obj : List (String × JsVal)) (keys : List String) :
    List (String × JsVal) :=
  keys.filterMap (fun k =>
    (obj.find? (fun kv => kv.1 == k)).map (fun kv => (k, kv.2)))

/-- The whitelist the admin handler passes to pick, from the source. -/
def pickKeys : List String := ["name", "email", "searchTerm", "contactNumber"]

/-- Whether a key is in the pick whitelist of the admin handler. -/
def isPickedKey (k : String) : Bool :=
  k == "name" || k == "email" || k == "searchTerm" || k == "contactNumber"

/-- The first version of the admin list handler (admin.controller.ts,
version without try/catch): it calls the service WITH NO ARGUMENT, and any
thrown error propagates out of the handler unhandled. -/
def adminControllerGetAllV1 (db : List Admin) :
    Except JsError (Envelope (List Admin)) :=
  match getAllFromDBJs db none with
  | Except.error e => Except.error e
  | Except.ok r => Except.ok (Envelope.success 200 "Admins Fetched Successfully!" r)

/-- The second version of the admin list handler (admin.controller.ts,
version with pick and try/catch): it repacks the query through pick, calls
the service, answers 200 with the success envelope, and catches a thrown
error into a 500 envelope carrying the error name and message. -/
def adminControllerGetAllV2 (db : List Admin) (query : List (String × JsVal)) :
    Envelope (List Admin) :=
  let safeQuery := pick query pickKeys
  match getAllFromDB db safeQuery with
  | Except.ok result => Envelope.success 200 "Admins Fetched Successfully!" result
  | Except.error e =>
      Envelope.failure 500 false (nameOr e.name "Failed to fetch Admins") e.message

/-- Modelled from the spec: the user role enumeration of the schema (the
Prisma schema file is not among the sources; the spec data model says the
role attribute is enumerated with at least ADMIN). -/
inductive UserRole
  | ADMIN
  | DOCTOR
  | PATIENT
deriving DecidableEq

/-- The user identity record: email (unique), hashed password, role. -/
structure UserRec where
  email : String
  password : String
  role : UserRole
deriving DecidableEq

/-- The persistent store: the user table and the admin table. -/
structure DBState where
  users : List UserRec
  admins : List Admin
deriving DecidableEq

/-- The creation payload: a plaintext password and a nested admin profile
object. -/
structure CreateAdminPayload where
  password : String
  admin : Admin
deriving DecidableEq

/-- The unique-constraint error the data-access layer raises on a duplicate
email insert. -/
def uniqueEmailErr : JsError :=
  { name := "PrismaClientKnownRequestError"
    message := "Unique constraint failed on the fields: (email)" }

/-- The data-access write `prisma.user.create`: fails on a duplicate email
(the email column is unique), otherwise appends the record and returns it. -/
def userCreate (u : UserRec) (st : DBState) :
    Except JsError (UserRec × DBState) :=
  if st.users.any (fun x => x.email == u.email) then Except.error uniqueEmailErr
  else Except.ok (u, { st with users := st.users ++ [u] })

/-- The data-access write `prisma.admin.create`: fails on a duplicate email,
otherwise appends the record and returns it. -/
def adminCreate (a : Admin) (st : DBState) :
    Except JsError (Admin × DBState) :=
  if st.admins.any (fun x => x.email == a.email) then Except.error uniqueEmailErr
  else Except.ok (a, { st with admins := st.admins ++ [a] })

/-- The data-access primitive `prisma.$transaction` on a pair of writes: it
runs them in order and applies them as one atomic unit — if either write
fails, the state is left exactly as it was (the spec glossary: a set of
writes the data store guarantees to apply entirely or not at all). -/
def transaction2 (w1 : DBState → Except JsError (α × DBState))
    (w2 : DBState → Except JsError (β × DBState)) (st : DBState) :
    Except JsError (α × β) × DBState :=
  match w1 st with
  | Except.error e => (Except.error e, st)
  | Except.ok (a, st1) =>
    match w2 st1 with
    | Except.error e => (Except.error e, st)
    | Except.ok (b, st2) => (Except.ok (a, b), st2)

/-- What `userService.createAdmin` returns on success: both created records. -/
structure CreateAdminResult where
  createdUserData : UserRec
  createdAdminData : Admin
deriving DecidableEq

/-- The service `userService.createAdmin` (user.service.ts): hash the
plaintext password with cost factor 10, build the user record from the admin
email, the hash and the ADMIN role, take the admin profile verbatim from the
payload, and persist both records inside one transaction. The hash primitive
(bcrypt.hash) is an external collaborator, taken as a function parameter
because its result also depends on a random salt. -/
def createAdmin (hashFn : String → Nat → String) (data : CreateAdminPayload)
    (st : DBState) : Except JsError CreateAdminResult × DBState :=
  let hashedPassword : String := hashFn data.password 10
  let userData : UserRec :=
    { email := data.admin.email, password := hashedPassword, role := UserRole.ADMIN }
  let adminData : Admin := data.admin
  match transaction2 (userCreate userData) (adminCreate adminData) st with
  | (Except.ok (u, a), st2) =>
      (Except.ok { createdUserData := u, createdAdminData := a }, st2)
  | (Except.error e, st2) => (Except.error e, st2)

/-- The handler `userController.createAdmin` (user.controller.ts): call the
service on the request body, answer 200 OK with the success envelope, and
catch a thrown error into a 500 envelope with the error name and message. -/
def userControllerCreateAdmin (hashFn : String → Nat → String)
    (body : CreateAdminPayload) (st : DBState) :
    Envelope CreateAdminResult × DBState :=
  match createAdmin hashFn body st with
  | (Except.ok result, st2) =>
      (Envelope.success 200 "Admin Created Successfully!" result, st2)
  | (Except.error e, st2) =>
      (Envelope.failure 500 false (nameOr e.name "Failed to create Admin") e.message, st2)

/-- The result-set predicate exactly as the specification states it: when a
search term is present and non-empty, a case-insensitive substring match on
the field name or on the field email; and, for every remaining key/value
pair, exact equality of that field with its value; with no parameters the
predicate is unconstrained. This definition follows the words of the spec
and is compared against the source-derived construction. -/
def specAdminMatches (params : List (String × JsVal)) (a : Admin) : Bool :=
  (match jsLookup params "searchTerm" with
   | JsVal.undef => true
   | JsVal.str s =>
     if s = "" then true else (ciContains a.name s || ciContains a.email s)) &&
  (restOf params).all (fun kv =>
    match kv.2 with
    | JsVal.str v => a.getField kv.1 == some v
    | JsVal.undef => false)

/-- Whether a leaf is a substring-containment condition. -/
def Leaf.isContainsLeaf : Leaf → Bool
  | Leaf.containsCI _ _ => true
  | Leaf.eqField _ _ => false

/-- Whether a clause mentions a substring-containment condition. -/
def Clause.hasContains : Clause → Bool
  | Clause.orC ls => ls.any Leaf.isContainsLeaf
  | Clause.andC ls => ls.any Leaf.isContainsLeaf

/-- Whether an equality leaf is bound to a defined value (an equality leaf
against undefined is the shape the spec says must not be built). -/
def Leaf.boundToDefined : Leaf → Bool
  | Leaf.eqField _ JsVal.undef => false
  | _ => true

/-- The leaves of the AND clauses of a where-input: the equality conditions
of the exact-match conjunction the service builds. -/
def andClauseEntries (w : List Clause) : List Leaf :=
  w.foldr (fun c acc =>
    match c with
    | Clause.andC ls => ls ++ acc
    | Clause.orC _ => acc) []

/-- A parameter mapping with the bindings to undefined removed. -/
def dropUndef (params : List (String × JsVal)) : List (String × JsVal) :=
  params.filter (fun kv => kv.2 != JsVal.undef)

/-! Helper lemmas about the where-clause construction. -/

/-- Boolean all respects pointwise equality on the members of the list. -/
theorem all_congr_on {α : Type} {l : List α} {p q : α → Bool}
    (h : ∀ x ∈ l, p x = q x) : l.all p = l.all q := by
  induction l with
  | nil => rfl
  | cons x xs ih =>
    simp only [List.all_cons]
    rw [h x (by simp), ih (fun y hy => h y (by simp [hy]))]

theorem getField_name (a : Admin) : a.getField "name" = some a.name := rfl

theorem getField_email (a : Admin) : a.getField "email" = some a.email := rfl

theorem getField_contactNumber (a : Admin) :
    a.getField "contactNumber" = some a.contactNumber := rfl

/-- Equality test on two defined option values reduces to the value test. -/
theorem some_beq_some (x y : String) :
    ((some x == some y) : Bool) = (x == y) := rfl

/-- The where-input built by the service, laid out as the concatenation of
the two optional clauses. -/
theorem buildWhere_eq (params : List (String × JsVal)) :
    buildWhere params =
      (if truthy (jsLookup params "searchTerm") then
        [Clause.orC (adminSearchableFields.map (fun field =>
          Leaf.containsCI field (jsStr (jsLookup params "searchTerm"))))]
       else []) ++
      (if 0 < (restOf params).length then
        [Clause.andC ((restOf params).map (fun kv => Leaf.eqField kv.1 kv.2))]
       else []) := by
  unfold buildWhere
  by_cases h : 0 < (restOf params).length <;> simp [h]

/-- The search clause over the whitelisted fields is always valid. -/
theorem searchClause_valid (s : JsVal) :
    Clause.valid (Clause.orC (adminSearchableFields.map (fun field =>
      Leaf.containsCI field (jsStr s)))) = true := by
  simp [adminSearchableFields, Clause.valid, Leaf.valid, Leaf.fieldName,
    isAdminField]

/-- Validity of the equality clause over the rest bindings reduces to schema
membership of every rest key. -/
theorem andClause_valid_eq (rest : List (String × JsVal)) :
    Clause.valid (Clause.andC (rest.map (fun kv => Leaf.eqField kv.1 kv.2))) =
      rest.all (fun kv => isAdminField kv.1) := by
  show (rest.map (fun kv => Leaf.eqField kv.1 kv.2)).all Leaf.valid = _
  induction rest with
  | nil => rfl
  | cons kv rest2 ih =>
    simp only [List.map_cons, List.all_cons]
    rw [ih]
    rfl

/-- Evaluation of the equality clause over the rest bindings is the
conjunction of the per-binding equality tests. -/
theorem andClause_eval_eq (rest : List (String × JsVal)) (a : Admin) :
    Clause.eval (Clause.andC (rest.map (fun kv => Leaf.eqField kv.1 kv.2))) a =
      rest.all (fun kv => evalLeaf (Leaf.eqField kv.1 kv.2) a) := by
  show (rest.map (fun kv => Leaf.eqField kv.1 kv.2)).all (fun l => evalLeaf l a) = _
  induction rest with
  | nil => rfl
  | cons kv rest2 ih =>
    simp only [List.map_cons, List.all_cons]
    rw [ih]

/-- Evaluation of the search clause on a record is the disjunction of the
containment tests on the two whitelisted fields. -/
theorem searchClause_eval (s : String) (a : Admin) :
    Clause.eval (Clause.orC (adminSearchableFields.map (fun field =>
      Leaf.containsCI field s))) a =
      (ciContains a.name s || ciContains a.email s) := by
  simp [adminSearchableFields, Clause.eval, evalLeaf, getField_name,
    getField_email]

/-- Validity of the built where-input reduces to validity of the rest keys. -/
theorem whereValid_buildWhere (params : List (String × JsVal)) :
    whereValid (buildWhere params) =
      (restOf params).all (fun kv => isAdminField kv.1) := by
  rw [buildWhere_eq]
  unfold whereValid
  rw [List.all_append]
  have h1 : (if truthy (jsLookup params "searchTerm") then
      [Clause.orC (adminSearchableFields.map (fun field =>
        Leaf.containsCI field (jsStr (jsLookup params "searchTerm"))))]
     else []).all Clause.valid = true := by
    by_cases ht : truthy (jsLookup params "searchTerm") <;>
      simp [ht, searchClause_valid]
  rw [h1, Bool.true_and]
  by_cases hr : 0 < (restOf params).length
  · rw [if_pos hr]
    simp only [List.all_cons, List.all_nil, Bool.and_true]
    exact andClause_valid_eq (restOf params)
  · have hnil : restOf params = [] := by
      have hlen : (restOf params).length = 0 := by omega
      exact List.length_eq_zero.mp hlen
    rw [if_neg hr, hnil]
    rfl

/-- Evaluation of the built where-input on one record, in closed form: the
search disjunction (when the search term is truthy) conjoined with the
equality test on every rest binding. -/
theorem evalWhere_buildWhere (params : List (String × JsVal)) (a : Admin) :
    evalWhere (buildWhere params) a =
      ((if truthy (jsLookup params "searchTerm") then
          (ciContains a.name (jsStr (jsLookup params "searchTerm")) ||
           ciContains a.email (jsStr (jsLookup params "searchTerm")))
        else true) &&
       (restOf params).all (fun kv => evalLeaf (Leaf.eqField kv.1 kv.2) a)) := by
  rw [buildWhere_eq]
  unfold evalWhere
  rw [List.all_append]
  have h1 : (if truthy (jsLookup params "searchTerm") then
      [Clause.orC (adminSearchableFields.map (fun field =>
        Leaf.containsCI field (jsStr (jsLookup params "searchTerm"))))]
     else []).all (fun c => c.eval a) =
      (if truthy (jsLookup params "searchTerm") then
        (ciContains a.name (jsStr (jsLookup params "searchTerm")) ||
         ciContains a.email (jsStr (jsLookup params "searchTerm")))
       else true) := by
    by_cases ht : truthy (jsLookup params "searchTerm") <;>
      simp [ht, searchClause_eval]
  rw [h1]
  by_cases hr : 0 < (restOf params).length
  · rw [if_pos hr]
    simp only [List.all_cons, List.all_nil, Bool.and_true]
    rw [andClause_eval_eq]
  · have hnil : restOf params = [] := by
      have hlen : (restOf params).length = 0 := by omega
      exact List.length_eq_zero.mp hlen
    rw [if_neg hr, hnil]
    simp

/-! Claim C1: the returned set is exactly the set of records satisfying the
specified filter predicate. -/

/-- On rest bindings whose values are all defined, the equality tests of the
built clause agree with the equality tests of the spec predicate. -/
theorem rest_eval_eq_spec (params : List (String × JsVal)) (a : Admin)
    (hvals : ∀ kv ∈ params, kv.2 ≠ JsVal.undef) :
    (restOf params).all (fun kv => evalLeaf (Leaf.eqField kv.1 kv.2) a) =
    (restOf params).all (fun kv =>
      match kv.2 with
      | JsVal.str v => a.getField kv.1 == some v
      | JsVal.undef => false) := by
  apply all_congr_on
  intro kv hkv
  have hkv2 : kv ∈ params := List.mem_of_mem_filter hkv
  rcases hv : kv.2 with _ | v
  · exact absurd hv (hvals kv hkv2)
  · simp only [evalLeaf]
    rcases hf : a.getField kv.1 with _ | v2 <;> simp [hf, some_beq_some]

/-- C1. For every filter-parameter mapping whose non-searchTerm keys exist
in the admin schema and whose values are defined strings, the service
returns exactly the records satisfying the specified predicate: the
case-insensitive substring disjunction over name and email when a non-empty
search term is present, conjoined with exact equality on every remaining
key/value pair; with no parameters every record is returned. -/
theorem getAllFromDB_exact_result_set (db : List Admin)
    (params : List (String × JsVal))
    (hkeys : ((restOf params).all (fun kv => isAdminField kv.1)) = true)
    (hvals : ∀ kv ∈ params, kv.2 ≠ JsVal.undef) :
    getAllFromDB db params = Except.ok (db.filter (specAdminMatches params)) := by
  unfold getAllFromDB findMany
  rw [whereValid_buildWhere, hkeys, if_pos rfl]
  congr 1
  apply List.filter_congr
  intro a ha
  rw [evalWhere_buildWhere, rest_eval_eq_spec params a hvals]
  unfold specAdminMatches
  rcases hst : jsLookup params "searchTerm" with _ | s
  · simp [truthy]
  · by_cases hs : s = "" <;> simp [truthy, jsStr, hs]

/-- Witness for C1 at a concrete fixture: a search term that matches one
record case-insensitively together with an exact-match filter. -/
theorem getAllFromDB_exact_result_set_witness :
    (getAllFromDB
      [{ name := "John Doe", email := "j@x.com", contactNumber := "111" },
       { name := "Jane Roe", email := "r@x.com", contactNumber := "222" }]
      [("searchTerm", JsVal.str "DOE"), ("contactNumber", JsVal.str "111")] =
     Except.ok
      ([{ name := "John Doe", email := "j@x.com", contactNumber := "111" },
        { name := "Jane Roe", email := "r@x.com", contactNumber := "222" }].filter
        (specAdminMatches
          [("searchTerm", JsVal.str "DOE"), ("contactNumber", JsVal.str "111")]))) ∧
    ([{ name := "John Doe", email := "j@x.com", contactNumber := "111" },
      { name := "Jane Roe", email := "r@x.com", contactNumber := "222" }].filter
        (specAdminMatches
          [("searchTerm", JsVal.str "DOE"), ("contactNumber", JsVal.str "111")]) =
      [{ name := "John Doe", email := "j@x.com", contactNumber := "111" }]) :=
  ⟨getAllFromDB_exact_result_set _ _ (by decide) (by decide), by decide⟩

/-! Claim C4: an empty or absent search term adds no substring clause. -/

/-- The exact-match clause never contains a substring condition. -/
theorem andClause_no_contains (rest : List (String × JsVal)) :
    Clause.hasContains
      (Clause.andC (rest.map (fun kv => Leaf.eqField kv.1 kv.2))) = false := by
  show (rest.map (fun kv => Leaf.eqField kv.1 kv.2)).any Leaf.isContainsLeaf = false
  induction rest with
  | nil => rfl
  | cons kv rest2 ih =>
    simp only [List.map_cons, List.any_cons]
    rw [ih]
    rfl

/-- C4. When the search term is the empty string or absent (both falsy), the
built filter contains no substring clause at all, and the result set is
constrained only by the exact-match conjunction over the remaining keys. -/
theorem emptySearchTerm_no_substring_clause (db : List Admin)
    (params : List (String × JsVal))
    (hterm : truthy (jsLookup params "searchTerm") = false)
    (hkeys : ((restOf params).all (fun kv => isAdminField kv.1)) = true) :
    ((buildWhere params).all (fun c => !(Clause.hasContains c)) = true) ∧
    getAllFromDB db params = Except.ok (db.filter (fun a =>
      (restOf params).all (fun kv => evalLeaf (Leaf.eqField kv.1 kv.2) a))) := by
  constructor
  · rw [buildWhere_eq, hterm]
    simp only [Bool.false_eq_true, if_false, List.nil_append]
    by_cases hr : 0 < (restOf params).length
    · rw [if_pos hr]
      simp [andClause_no_contains]
    · rw [if_neg hr]
      rfl
  · unfold getAllFromDB findMany
    rw [whereValid_buildWhere, hkeys, if_pos rfl]
    congr 1
    apply List.filter_congr
    intro a ha
    rw [evalWhere_buildWhere, hterm]
    simp

/-- Witness for C4 at a concrete fixture: empty search term together with an
exact-match filter on email; only the exact match constrains the result. -/
theorem emptySearchTerm_no_substring_clause_witness :
    (((buildWhere [("searchTerm", JsVal.str ""), ("email", JsVal.str "j@x.com")]).all
        (fun c => !(Clause.hasContains c)) = true) ∧
     getAllFromDB
      [{ name := "John Doe", email := "j@x.com", contactNumber := "111" },
       { name := "Jane Roe", email := "r@x.com", contactNumber := "222" }]
      [("searchTerm", JsVal.str ""), ("email", JsVal.str "j@x.com")] =
      Except.ok
       ([{ name := "John Doe", email := "j@x.com", contactNumber := "111" },
         { name := "Jane Roe", email := "r@x.com", contactNumber := "222" }].filter
         (fun a =>
           (restOf [("searchTerm", JsVal.str ""), ("email", JsVal.str "j@x.com")]).all
             (fun kv => evalLeaf (Leaf.eqField kv.1 kv.2) a)))) ∧
    getAllFromDB
      [{ name := "John Doe", email := "j@x.com", contactNumber := "111" },
       { name := "Jane Roe", email := "r@x.com", contactNumber := "222" }]
      [("searchTerm", JsVal.str ""), ("email", JsVal.str "j@x.com")] =
      Except.ok [{ name := "John Doe", email := "j@x.com", contactNumber := "111" }] :=
  ⟨emptySearchTerm_no_substring_clause _ _ (by decide) (by decide), by rfl⟩

/-! Claim C5: bindings to undefined in the rest mapping. -/

/-- A key bound in no entry of the object reads as undefined. -/
theorem jsLookup_not_mem (params : List (String × JsVal)) (k : String)
    (h : ∀ kv ∈ params, kv.1 ≠ k) : jsLookup params k = JsVal.undef := by
  unfold jsLookup
  rcases hf : params.find? (fun kv => kv.1 == k) with _ | kv
  · rw [hf]
  · have hp := List.find?_some hf
    have hm : kv ∈ params := List.mem_of_find?_eq_some hf
    exact absurd (eq_of_beq hp) (h kv hm)

/-- On an object without duplicate keys, removing the bindings to undefined
does not change any property read (a removed binding read as undefined and
still reads as undefined). -/
theorem jsLookup_dropUndef (params : List (String × JsVal)) (k : String)
    (hnd : (params.map Prod.fst).Nodup) :
    jsLookup (dropUndef params) k = jsLookup params k := by
  induction params with
  | nil => rfl
  | cons kv rest ih =>
    rw [List.map_cons, List.nodup_cons] at hnd
    obtain ⟨hnotin, hnd2⟩ := hnd
    cases hk : (kv.1 == k) with
    | true =>
      have hkeq : kv.1 = k := eq_of_beq hk
      rcases hv : kv.2 with _ | s
      · have h1 : dropUndef (kv :: rest) = dropUndef rest := by
          simp [dropUndef, List.filter_cons, hv]
        have h2 : jsLookup (kv :: rest) k = JsVal.undef := by
          simp [jsLookup, List.find?_cons, hk, hv]
        rw [h1, h2]
        apply jsLookup_not_mem
        intro kv2 hkv2 hcon
        apply hnotin
        rw [hkeq, ← hcon]
        exact List.mem_map_of_mem Prod.fst (List.mem_of_mem_filter hkv2)
      · have h1 : dropUndef (kv :: rest) = kv :: dropUndef rest := by
          simp [dropUndef, List.filter_cons, hv]
        rw [h1]
        simp [jsLookup, List.find?_cons, hk]
    | false =>
      rcases hv : kv.2 with _ | s
      · have h1 : dropUndef (kv :: rest) = dropUndef rest := by
          simp [dropUndef, List.filter_cons, hv]
        rw [h1, ih hnd2]
        simp [jsLookup, List.find?_cons, hk]
      · have h1 : dropUndef (kv :: rest) = kv :: dropUndef rest := by
          simp [dropUndef, List.filter_cons, hv]
        rw [h1]
        have h2 : jsLookup (kv :: dropUndef rest) k = jsLookup (dropUndef rest) k := by
          simp [jsLookup, List.find?_cons, hk]
        have h3 : jsLookup (kv :: rest) k = jsLookup rest k := by
          simp [jsLookup, List.find?_cons, hk]
        rw [h2, h3, ih hnd2]

/-- Removing undefined bindings commutes with taking the object rest. -/
theorem restOf_dropUndef (params : List (String × JsVal)) :
    restOf (dropUndef params) = dropUndef (restOf params) := by
  induction params with
  | nil => rfl
  | cons kv rest ih =>
    cases h1 : (kv.1 != "searchTerm") <;> cases h2 : (kv.2 != JsVal.undef) <;>
      simp [restOf, dropUndef, List.filter_cons, h1, h2] at ih ⊢ <;>
        exact ih

/-- Dropping the bindings to undefined does not change the value of the
exact-match conjunction: each dropped binding contributed an equality test
against undefined, which holds of every record. -/
theorem all_eval_dropUndef (l : List (String × JsVal)) (a : Admin) :
    l.all (fun kv => evalLeaf (Leaf.eqField kv.1 kv.2) a) =
    (dropUndef l).all (fun kv => evalLeaf (Leaf.eqField kv.1 kv.2) a) := by
  induction l with
  | nil => rfl
  | cons kv rest ih =>
    rcases hv : kv.2 with _ | s
    · have h1 : dropUndef (kv :: rest) = dropUndef rest := by
        simp [dropUndef, List.filter_cons, hv]
      have h2 : evalLeaf (Leaf.eqField kv.1 kv.2) a = true := by
        simp [evalLeaf, hv]
      rw [h1, List.all_cons, h2, Bool.true_and, ih]
    · have h1 : dropUndef (kv :: rest) = kv :: dropUndef rest := by
        simp [dropUndef, List.filter_cons, hv]
      rw [h1, List.all_cons, List.all_cons, ih]

/-- C5 counterexample: for the parameter mapping binding name to undefined,
the exact-match AND clause the service builds does contain an equality
condition for a key bound to undefined — the claimed exclusion does not
happen in the construction. -/
theorem undefined_key_reaches_and_clause :
    ((andClauseEntries (buildWhere [("name", JsVal.undef)])).all
      Leaf.boundToDefined) = false := by decide

/-- C5 as amended: the service does not exclude undefined-valued keys when
building the exact-match clause, but each such condition is ignored by the
data-access layer, so on an object without duplicate keys whose rest keys
are schema fields the result is the same as if those keys had been
excluded. -/
theorem undef_valued_keys_are_inert (db : List Admin)
    (params : List (String × JsVal))
    (hnd : (params.map Prod.fst).Nodup)
    (hkeys : ((restOf params).all (fun kv => isAdminField kv.1)) = true) :
    getAllFromDB db params = getAllFromDB db (dropUndef params) := by
  have hkeys2 : ((restOf (dropUndef params)).all (fun kv => isAdminField kv.1)) = true := by
    rw [restOf_dropUndef]
    rw [List.all_eq_true] at hkeys ⊢
    intro kv hkv
    exact hkeys kv (List.mem_of_mem_filter hkv)
  unfold getAllFromDB findMany
  rw [whereValid_buildWhere, whereValid_buildWhere, hkeys, hkeys2,
    if_pos rfl, if_pos rfl]
  congr 1
  apply List.filter_congr
  intro a ha
  rw [evalWhere_buildWhere, evalWhere_buildWhere,
    jsLookup_dropUndef params "searchTerm" hnd, restOf_dropUndef,
    ← all_eval_dropUndef]

/-- Witness for C5 as amended at a concrete fixture: a name key bound to
undefined next to a defined email filter; the result equals the one for the
mapping without the undefined binding, and the undefined binding does not
constrain the result. -/
theorem undef_valued_keys_are_inert_witness :
    (getAllFromDB
      [{ name := "John Doe", email := "j@x.com", contactNumber := "111" },
       { name := "Jane Roe", email := "r@x.com", contactNumber := "222" }]
      [("name", JsVal.undef), ("email", JsVal.str "j@x.com")] =
     getAllFromDB
      [{ name := "John Doe", email := "j@x.com", contactNumber := "111" },
       { name := "Jane Roe", email := "r@x.com", contactNumber := "222" }]
      (dropUndef [("name", JsVal.undef), ("email", JsVal.str "j@x.com")])) ∧
    getAllFromDB
      [{ name := "John Doe", email := "j@x.com", contactNumber := "111" },
       { name := "Jane Roe", email := "r@x.com", contactNumber := "222" }]
      [("name", JsVal.undef), ("email", JsVal.str "j@x.com")] =
      Except.ok [{ name := "John Doe", email := "j@x.com", contactNumber := "111" }] :=
  ⟨undef_valued_keys_are_inert _ _ (by decide) (by decide), by rfl⟩

/-! Claim C10: the empty string is treated asymmetrically per key. -/

/-- C10. A search term equal to the empty string contributes no clause, but
any schema key present with the empty-string value still produces an
equality condition, which holds exactly of the records whose field is the
empty string. -/
theorem emptyString_value_asymmetry (db : List Admin) (k : String)
    (hk : isAdminField k = true) :
    ((buildWhere [("searchTerm", JsVal.str ""), (k, JsVal.str "")]).all
      (fun c => !(Clause.hasContains c)) = true) ∧
    getAllFromDB db [("searchTerm", JsVal.str ""), (k, JsVal.str "")] =
      Except.ok (db.filter (fun a => evalLeaf (Leaf.eqField k (JsVal.str "")) a)) ∧
    (∀ a : Admin, evalLeaf (Leaf.eqField k (JsVal.str "")) a = true ↔
      a.getField k = some "") := by
  have hkne : k ≠ "searchTerm" := by
    intro h
    rw [h] at hk
    exact absurd hk (by decide)
  have hbne : (k != "searchTerm") = true := bne_iff_ne.mpr hkne
  have hrest : restOf [("searchTerm", JsVal.str ""), (k, JsVal.str "")] =
      [(k, JsVal.str "")] := by
    simp [restOf, List.filter_cons, hbne]
  have hterm : jsLookup [("searchTerm", JsVal.str ""), (k, JsVal.str "")]
      "searchTerm" = JsVal.str "" := rfl
  refine ⟨?_, ?_, ?_⟩
  · rw [buildWhere_eq, hterm, hrest]
    simp [truthy, Clause.hasContains, Leaf.isContainsLeaf]
  · unfold getAllFromDB findMany
    rw [whereValid_buildWhere, hrest]
    rw [show ([(k, JsVal.str "")].all (fun kv => isAdminField kv.1)) = true by
      simp [List.all_cons, hk]]
    rw [if_pos rfl]
    congr 1
    apply List.filter_congr
    intro a ha
    rw [evalWhere_buildWhere, hterm, hrest]
    simp [truthy]
  · intro a
    simp only [evalLeaf]
    rcases hf : a.getField k with _ | v
    · simp [hf]
    · simp [hf]

/-- Witness for C10 at a concrete fixture: the key name bound to the empty
string matches exactly the record whose name is empty, while the empty
search term adds nothing. -/
theorem emptyString_value_asymmetry_witness :
    (((buildWhere [("searchTerm", JsVal.str ""), ("name", JsVal.str "")]).all
        (fun c => !(Clause.hasContains c)) = true) ∧
     getAllFromDB
       [{ name := "", email := "a@x.com", contactNumber := "1" },
        { name := "Jane Roe", email := "r@x.com", contactNumber := "2" }]
       [("searchTerm", JsVal.str ""), ("name", JsVal.str "")] =
       Except.ok
        ([{ name := "", email := "a@x.com", contactNumber := "1" },
          { name := "Jane Roe", email := "r@x.com", contactNumber := "2" }].filter
          (fun a => evalLeaf (Leaf.eqField "name" (JsVal.str "")) a)) ∧
     (∀ a : Admin, evalLeaf (Leaf.eqField "name" (JsVal.str "")) a = true ↔
       a.getField "name" = some "")) ∧
    getAllFromDB
      [{ name := "", email := "a@x.com", contactNumber := "1" },
       { name := "Jane Roe", email := "r@x.com", contactNumber := "2" }]
      [("searchTerm", JsVal.str ""), ("name", JsVal.str "")] =
      Except.ok [{ name := "", email := "a@x.com", contactNumber := "1" }] :=
  ⟨emptyString_value_asymmetry _ "name" (by decide), by rfl⟩

/-! Claim C6: behaviour on queries naming fields outside the admin schema. -/

/-- Boolean filterMap respects pointwise equality on the members. -/
theorem filterMap_congr_on {α β : Type} (l : List α) (f g : α → Option β)
    (h : ∀ x ∈ l, f x = g x) : l.filterMap f = l.filterMap g := by
  induction l with
  | nil => rfl
  | cons x xs ih =>
    rw [List.filterMap_cons, List.filterMap_cons, h x (by simp),
      ih (fun y hy => h y (by simp [hy]))]

/-- Searching a filtered list finds the same entry when the search predicate
implies the filter predicate. -/
theorem find_filter_eq {α : Type} (l : List α) (p q : α → Bool)
    (h : ∀ x, q x = true → p x = true) :
    (l.filter p).find? q = l.find? q := by
  induction l with
  | nil => rfl
  | cons x xs ih =>
    cases hq : q x with
    | true =>
      have hp : p x = true := h x hq
      simp [List.filter_cons, hp, List.find?_cons, hq]
    | false =>
      cases hp : p x <;> simp [List.filter_cons, hp, List.find?_cons, hq, ih]

/-- An entry whose key equals a picked key is itself picked. -/
theorem picked_of_key (k : String) (hk : isPickedKey k = true) :
    ∀ kv : String × JsVal, (kv.1 == k) = true → isPickedKey kv.1 = true := by
  intro kv hkv
  rw [eq_of_beq hkv]
  exact hk

/-- The handler repacking reads only the whitelisted keys: entries of the
query at other keys do not influence the picked sub-object. -/
theorem pick_ignores_unpicked (query : List (String × JsVal)) :
    pick (query.filter (fun kv => isPickedKey kv.1)) pickKeys =
      pick query pickKeys := by
  unfold pick
  apply filterMap_congr_on
  intro k hkmem
  have hk4 : k = "name" ∨ k = "email" ∨ k = "searchTerm" ∨ k = "contactNumber" := by
    simpa [pickKeys] using hkmem
  have hk : isPickedKey k = true := by
    rcases hk4 with h | h | h | h <;> rw [h] <;> decide
  rw [find_filter_eq query (fun kv => isPickedKey kv.1) (fun kv => kv.1 == k)
    (picked_of_key k hk)]

/-- C6 counterexample: a listing request whose query names the field
specialization, which is not in the admin schema, is answered with status
200 and the FULL fixture set — silently, with no reported error. -/
theorem unknownField_silently_ignored :
    adminControllerGetAllV2
      [{ name := "John Doe", email := "j@x.com", contactNumber := "111" },
       { name := "Jane Roe", email := "r@x.com", contactNumber := "222" }]
      [("specialization", JsVal.str "cardio")] =
    Envelope.success 200 "Admins Fetched Successfully!"
      [{ name := "John Doe", email := "j@x.com", contactNumber := "111" },
       { name := "Jane Roe", email := "r@x.com", contactNumber := "222" }] := by
  rfl

/-- C6 as amended: the handler silently drops query keys outside its pick
whitelist, so an unknown field in the query never reaches the data-access
layer and never produces an error; only when the service itself is given a
rest key outside the schema does the data-access layer raise the
unknown-argument error. -/
theorem unknownField_dropped_or_service_error (db : List Admin)
    (query params : List (String × JsVal)) (k : String) (v : JsVal)
    (hmem : (k, v) ∈ restOf params) (hk : isAdminField k = false) :
    adminControllerGetAllV2 db query =
      adminControllerGetAllV2 db (query.filter (fun kv => isPickedKey kv.1)) ∧
    getAllFromDB db params = Except.error prismaUnknownArg := by
  constructor
  · unfold adminControllerGetAllV2
    rw [pick_ignores_unpicked]
  · unfold getAllFromDB findMany
    have hall : ((restOf params).all (fun kv => isAdminField kv.1)) = false := by
      cases hc : (restOf params).all (fun kv => isAdminField kv.1) with
      | false => rfl
      | true =>
        have hkv := (List.all_eq_true.mp hc) (k, v) hmem
        rw [hk] at hkv
        exact absurd hkv (by decide)
    rw [whereValid_buildWhere, hall]
    simp

/-- Witness for C6 as amended at a concrete fixture: a query carrying both a
whitelisted name filter and an unknown specialization key is answered as if
the unknown key were absent, while a direct service call with the unknown
key is rejected by the data-access layer. -/
theorem unknownField_dropped_or_service_error_witness :
    (adminControllerGetAllV2
       [{ name := "John Doe", email := "j@x.com", contactNumber := "111" },
        { name := "Jane Roe", email := "r@x.com", contactNumber := "222" }]
       [("name", JsVal.str "Jane Roe"), ("specialization", JsVal.str "cardio")] =
     adminControllerGetAllV2
       [{ name := "John Doe", email := "j@x.com", contactNumber := "111" },
        { name := "Jane Roe", email := "r@x.com", contactNumber := "222" }]
       ([("name", JsVal.str "Jane Roe"), ("specialization", JsVal.str "cardio")].filter
         (fun kv => isPickedKey kv.1)) ∧
     getAllFromDB
       [{ name := "John Doe", email := "j@x.com", contactNumber := "111" },
        { name := "Jane Roe", email := "r@x.com", contactNumber := "222" }]
       [("specialization", JsVal.str "cardio")] =
       Except.error prismaUnknownArg) ∧
    adminControllerGetAllV2
      [{ name := "John Doe", email := "j@x.com", contactNumber := "111" },
       { name := "Jane Roe", email := "r@x.com", contactNumber := "222" }]
      [("name", JsVal.str "Jane Roe"), ("specialization", JsVal.str "cardio")] =
      Envelope.success 200 "Admins Fetched Successfully!"
        [{ name := "Jane Roe", email := "r@x.com", contactNumber := "222" }] :=
  ⟨unknownField_dropped_or_service_error _ _
      [("specialization", JsVal.str "cardio")] "specialization"
      (JsVal.str "cardio") (by decide) (by decide),
    by rfl⟩

/-! Claims C2, C3, C7: the admin creation service. -/

/-- Case analysis of createAdmin: either some write failed and the state is
returned unchanged, or both records were appended and returned. -/
theorem createAdmin_cases (hashFn : String → Nat → String)
    (data : CreateAdminPayload) (st : DBState) :
    (∃ e, createAdmin hashFn data st = (Except.error e, st)) ∨
    createAdmin hashFn data st =
      (Except.ok
        { createdUserData :=
            { email := data.admin.email, password := hashFn data.password 10,
              role := UserRole.ADMIN }
          createdAdminData := data.admin },
       { users := st.users ++
           [{ email := data.admin.email, password := hashFn data.password 10,
              role := UserRole.ADMIN }]
         admins := st.admins ++ [data.admin] }) := by
  by_cases h1 : st.users.any (fun x => x.email == data.admin.email) = true
  · exact Or.inl ⟨uniqueEmailErr,
      by simp [createAdmin, transaction2, userCreate, adminCreate, h1]⟩
  · by_cases h2 : st.admins.any (fun x => x.email == data.admin.email) = true
    · exact Or.inl ⟨uniqueEmailErr,
        by simp [createAdmin, transaction2, userCreate, adminCreate, h1, h2]⟩
    · exact Or.inr
        (by simp [createAdmin, transaction2, userCreate, adminCreate, h1, h2])

/-- C2. The two writes of createAdmin are one atomic unit: whenever the call
fails the state is exactly the initial one (no partial state), and whenever
it succeeds both returned records are persisted in the final state. -/
theorem createAdmin_atomic (hashFn : String → Nat → String)
    (data : CreateAdminPayload) (st : DBState) :
    (∀ e st2, createAdmin hashFn data st = (Except.error e, st2) → st2 = st) ∧
    (∀ r st2, createAdmin hashFn data st = (Except.ok r, st2) →
      r.createdUserData ∈ st2.users ∧ r.createdAdminData ∈ st2.admins) := by
  rcases createAdmin_cases hashFn data st with ⟨e0, heq⟩ | heq
  · constructor
    · intro e st2 h
      have hpair := heq.symm.trans h
      exact (Prod.ext_iff.mp hpair).2.symm
    · intro r st2 h
      have hpair := heq.symm.trans h
      exact absurd (Prod.ext_iff.mp hpair).1 (by simp)
  · constructor
    · intro e st2 h
      have hpair := heq.symm.trans h
      exact absurd (Prod.ext_iff.mp hpair).1 (by simp)
    · intro r st2 h
      rw [heq] at h
      injection h with hfst hsnd
      injection hfst with hr
      rw [← hr, ← hsnd]
      simp

/-- C3. On success, createAdmin has built the user record from the admin
email, the hashed password and the ADMIN role, has taken the admin profile
record verbatim from the payload, and returns both created records. -/
theorem createAdmin_builds_records (hashFn : String → Nat → String)
    (data : CreateAdminPayload) (st : DBState) (r : CreateAdminResult)
    (st2 : DBState)
    (h : createAdmin hashFn data st = (Except.ok r, st2)) :
    r.createdUserData =
      { email := data.admin.email, password := hashFn data.password 10,
        role := UserRole.ADMIN } ∧
    r.createdAdminData = data.admin := by
  rcases createAdmin_cases hashFn data st with ⟨e0, heq⟩ | heq
  · have hpair := heq.symm.trans h
    exact absurd (Prod.ext_iff.mp hpair).1 (by simp)
  · rw [heq] at h
    injection h with hfst hsnd
    injection hfst with hr
    rw [← hr]
    exact ⟨rfl, rfl⟩

/-- C7. createAdmin feeds the plaintext password to the hash primitive with
the fixed cost factor 10; the returned user record and every user record the
call adds to the store carry that hash, and never the plaintext (given that
the hash differs from its input). -/
theorem createAdmin_stores_hash (hashFn : String → Nat → String)
    (data : CreateAdminPayload) (st : DBState) (r : CreateAdminResult)
    (st2 : DBState)
    (h : createAdmin hashFn data st = (Except.ok r, st2)) :
    r.createdUserData.password = hashFn data.password 10 ∧
    (∀ u ∈ st2.users, u ∉ st.users → u.password = hashFn data.password 10) ∧
    (hashFn data.password 10 ≠ data.password →
      ∀ u ∈ st2.users, u ∉ st.users → u.password ≠ data.password) := by
  rcases createAdmin_cases hashFn data st with ⟨e0, heq⟩ | heq
  · have hpair := heq.symm.trans h
    exact absurd (Prod.ext_iff.mp hpair).1 (by simp)
  · rw [heq] at h
    injection h with hfst hsnd
    injection hfst with hr
    have hnew : ∀ u ∈ st2.users, u ∉ st.users →
        u.password = hashFn data.password 10 := by
      intro u humem hunot
      rw [← hsnd] at humem
      rcases List.mem_append.mp humem with h1 | h1
      · exact absurd h1 hunot
      · have hu : u = { email := data.admin.email,
                        password := hashFn data.password 10,
                        role := UserRole.ADMIN } := by
          simpa using h1
        rw [hu]
    refine ⟨by rw [← hr], hnew, ?_⟩
    intro hne u humem hunot
    rw [hnew u humem hunot]
    exact hne

/-- Witness for C2 at concrete inputs: with a conflicting admin email the
user write succeeds but the admin write fails and the state stays exactly
the initial one; on an empty store both records end up persisted. -/
theorem createAdmin_atomic_witness :
    ((createAdmin (fun s _ => "h:" ++ s)
        { password := "pw",
          admin := { name := "A", email := "a@x.com", contactNumber := "1" } }
        { users := [],
          admins := [{ name := "A", email := "a@x.com", contactNumber := "1" }] }).2 =
      { users := [],
        admins := [{ name := "A", email := "a@x.com", contactNumber := "1" }] }) ∧
    (({ email := "a@x.com", password := "h:pw", role := UserRole.ADMIN } : UserRec) ∈
      ({ users := [{ email := "a@x.com", password := "h:pw", role := UserRole.ADMIN }],
         admins := [{ name := "A", email := "a@x.com", contactNumber := "1" }] } : DBState).users ∧
     ({ name := "A", email := "a@x.com", contactNumber := "1" } : Admin) ∈
      ({ users := [{ email := "a@x.com", password := "h:pw", role := UserRole.ADMIN }],
         admins := [{ name := "A", email := "a@x.com", contactNumber := "1" }] } : DBState).admins) :=
  ⟨(createAdmin_atomic (fun s _ => "h:" ++ s)
      { password := "pw",
        admin := { name := "A", email := "a@x.com", contactNumber := "1" } }
      { users := [],
        admins := [{ name := "A", email := "a@x.com", contactNumber := "1" }] }).1
      uniqueEmailErr _ (by rfl),
   (createAdmin_atomic (fun s _ => "h:" ++ s)
      { password := "pw",
        admin := { name := "A", email := "a@x.com", contactNumber := "1" } }
      { users := [], admins := [] }).2
      { createdUserData :=
          { email := "a@x.com", password := "h:pw", role := UserRole.ADMIN }
        createdAdminData := { name := "A", email := "a@x.com", contactNumber := "1" } }
      { users := [{ email := "a@x.com", password := "h:pw", role := UserRole.ADMIN }],
        admins := [{ name := "A", email := "a@x.com", contactNumber := "1" }] }
      (by rfl)⟩

/-- Witness for C3 at a concrete input: on an empty store the created user
record is the email with the hash and the ADMIN role, and the created admin
record is the payload profile verbatim. -/
theorem createAdmin_builds_records_witness :
    ({ email := "a@x.com", password := "h:pw", role := UserRole.ADMIN } : UserRec) =
      { email := "a@x.com", password := "h:pw", role := UserRole.ADMIN } ∧
    ({ name := "A", email := "a@x.com", contactNumber := "1" } : Admin) =
      { name := "A", email := "a@x.com", contactNumber := "1" } :=
  createAdmin_builds_records (fun s _ => "h:" ++ s)
    { password := "pw",
      admin := { name := "A", email := "a@x.com", contactNumber := "1" } }
    { users := [], admins := [] }
    { createdUserData :=
        { email := "a@x.com", password := "h:pw", role := UserRole.ADMIN }
      createdAdminData := { name := "A", email := "a@x.com", contactNumber := "1" } }
    { users := [{ email := "a@x.com", password := "h:pw", role := UserRole.ADMIN }],
      admins := [{ name := "A", email := "a@x.com", contactNumber := "1" }] }
    (by rfl)

/-- Witness for C7 at a concrete input, discharging also the hypothesis that
the hash differs from the plaintext. -/
theorem createAdmin_stores_hash_witness :
    ({ email := "a@x.com", password := "h:pw", role := UserRole.ADMIN } : UserRec).password =
      (fun (s : String) (_ : Nat) => "h:" ++ s) "pw" 10 ∧
    (∀ u ∈ ({ users := [{ email := "a@x.com", password := "h:pw", role := UserRole.ADMIN }],
              admins := [{ name := "A", email := "a@x.com", contactNumber := "1" }] } : DBState).users,
      u ∉ ({ users := [], admins := [] } : DBState).users →
      u.password = (fun (s : String) (_ : Nat) => "h:" ++ s) "pw" 10) ∧
    ((fun (s : String) (_ : Nat) => "h:" ++ s) "pw" 10 ≠ "pw" →
      ∀ u ∈ ({ users := [{ email := "a@x.com", password := "h:pw", role := UserRole.ADMIN }],
               admins := [{ name := "A", email := "a@x.com", contactNumber := "1" }] } : DBState).users,
        u ∉ ({ users := [], admins := [] } : DBState).users →
        u.password ≠ "pw") :=
  createAdmin_stores_hash (fun s _ => "h:" ++ s)
    { password := "pw",
      admin := { name := "A", email := "a@x.com", contactNumber := "1" } }
    { users := [], admins := [] }
    { createdUserData :=
        { email := "a@x.com", password := "h:pw", role := UserRole.ADMIN }
      createdAdminData := { name := "A", email := "a@x.com", contactNumber := "1" } }
    { users := [{ email := "a@x.com", password := "h:pw", role := UserRole.ADMIN }],
      admins := [{ name := "A", email := "a@x.com", contactNumber := "1" }] }
    (by rfl)

/-! Claim C8: the handlers answer 200 success envelopes exactly on service
success and 500 failure envelopes exactly on a thrown error. -/

/-- C8. For every request, the creation handler and the listing handler
answer the 200 success envelope if and only if their service call succeeds,
and the 500 failure envelope carrying success = false if and only if the
service call throws. -/
theorem handlers_status_envelopes (hashFn : String → Nat → String)
    (body : CreateAdminPayload) (st : DBState) (db : List Admin)
    (query : List (String × JsVal)) :
    ((userControllerCreateAdmin hashFn body st).1.isOk200 =
      isOkE (createAdmin hashFn body st).1) ∧
    ((userControllerCreateAdmin hashFn body st).1.isErr500 =
      !(isOkE (createAdmin hashFn body st).1)) ∧
    ((adminControllerGetAllV2 db query).isOk200 =
      isOkE (getAllFromDB db (pick query pickKeys))) ∧
    ((adminControllerGetAllV2 db query).isErr500 =
      !(isOkE (getAllFromDB db (pick query pickKeys)))) := by
  rcases h1 : createAdmin hashFn body st with ⟨res, st2⟩
  cases res <;> cases h2 : getAllFromDB db (pick query pickKeys) <;>
    simp [userControllerCreateAdmin, adminControllerGetAllV2, h1, h2,
      Envelope.isOk200, Envelope.isErr500, isOkE]

/-! Claim C9: the listing service requires a parameter object. -/

/-- C9. Called on undefined (as the first controller version does, passing
no argument), the service throws the destructuring TypeError before any
query is built: the result does not depend on the store, a call with an
actual object never produces that TypeError, and the no-argument controller
version propagates exactly that error. -/
theorem service_requires_param_object (db db2 : List Admin) :
    getAllFromDBJs db none = Except.error destructureErr ∧
    getAllFromDBJs db none = getAllFromDBJs db2 none ∧
    (∀ p e, getAllFromDBJs db (some p) = Except.error e → e.name ≠ "TypeError") ∧
    adminControllerGetAllV1 db = Except.error destructureErr := by
  refine ⟨rfl, rfl, ?_, rfl⟩
  intro p e h
  have h2 : findMany db (buildWhere p) = Except.error e := h
  unfold findMany at h2
  by_cases hv : whereValid (buildWhere p) = true
  · rw [if_pos hv] at h2
    exact absurd h2 (by simp)
  · rw [if_neg hv] at h2
    injection h2 with he
    rw [← he]
    decide

/-- Witness for C9: a direct service call with an object that the data-access
layer rejects produces the validation error, whose name is not TypeError. -/
theorem service_requires_param_object_witness :
    prismaUnknownArg.name ≠ "TypeError" :=
  (service_requires_param_object [] []).2.2.1
    [("specialization", JsVal.str "x")] prismaUnknownArg (by rfl)

end HealthCare
